import Mathlib

/-!
Verification development for the traffic-interception and security-analysis
core of the `apisec` workbench (Rust sources under `src-tauri/src/`).

The Rust code is shallowly embedded: pure functions become Lean functions,
the SQLite tables touched by the asset store become explicit record states,
and the calls into deterministic external libraries (the `regex` engine,
`serde_json` parsing, `base64` decoding, `url` parsing, `f64` formatting)
become explicit function parameters, so that every theorem quantifies over
the behaviour of those libraries.  Machine integers are modelled as `Int`
(`i64` columns) and `Nat` (`u16` status codes).  The scanner's `f64`
entropy accumulation is idealised as exact rationals (`ℚ`); that
idealisation is not faithful to the order-dependent rounding of `f64`
addition, and no theorem below relies on arithmetic properties of it (see
`calculate_entropy`).
-/

/-! ## String helpers

Rust's `str::split(char)`, `str::contains(&str)`, `str::matches(&str).count()`,
`str::to_lowercase()` and `str::starts_with(&str)` are used by the embedded
code.  They are re-implemented here over `List Char` so that all definitions
evaluate inside the kernel.
-/

/-- Rust `str::split(sep)` over the characters of a string: yields the
(possibly empty) chunks between occurrences of `sep`, including a leading
chunk before a leading separator and a trailing chunk after a trailing
separator.  `splitOnChar sep []` is `[[]]`, matching `"".split(sep)`. -/
def splitOnChar (sep : Char) : List Char → List (List Char)
  | [] => [[]]
  | c :: cs =>
    if c = sep then
      [] :: splitOnChar sep cs
    else
      match splitOnChar sep cs with
      | [] => [[c]]
      | chunk :: rest => (c :: chunk) :: rest

/-- Rust `str::contains(needle)`: `needle` occurs as a contiguous substring. -/
def containsStr (hay needle : String) : Bool :=
  hay.toList.tails.any (fun t => needle.toList.isPrefixOf t)

/-- Rust `str::starts_with(needle)`. -/
def startsWithStr (hay needle : String) : Bool :=
  needle.toList.isPrefixOf hay.toList

/-- Helper for `countOccStr`: counts the non-overlapping occurrences of the
non-empty needle `a :: as` in the haystack, scanning left to right and
skipping the needle's length after each hit, exactly like Rust
`str::matches(pat).count()`. -/
def countOccAux (a : Char) (as : List Char) : List Char → Nat
  | [] => 0
  | h :: t =>
    if (a :: as).isPrefixOf (h :: t) then
      1 + countOccAux a as ((h :: t).drop (a :: as).length)
    else
      countOccAux a as t
  termination_by l => l.length
  decreasing_by
    · simp only [List.length_drop, List.length_cons]
      omega
    · simp

/-- Rust `str::matches(needle).count()` for a non-empty needle (the embedded
code only counts the literal `"query"`).  An empty needle yields `0`. -/
def countOccStr (hay needle : String) : Nat :=
  match needle.toList with
  | [] => 0
  | a :: as => countOccAux a as hay.toList

/-- Rust `str::to_lowercase()`, restricted to ASCII case mapping (all strings
lowercased by the embedded code are ASCII header names, HTTP methods and
keywords, on which the two functions agree). -/
def strToLower (s : String) : String :=
  String.mk (s.toList.map Char.toLower)

/-! ## Findings and rule data (`analysis.rs`, `db.rs`, `plugins.rs`) -/

/-- `analysis.rs` `FindingSeverity`. -/
inductive FindingSeverity where
  | High
  | Medium
  | Low
  | Info
deriving Repr, DecidableEq

/-- `analysis.rs` `FindingSeverity::from_str`: case-insensitive mapping with
`critical` collapsing onto `High` and everything unknown onto `Info`. -/
def FindingSeverity.fromStr (s : String) : FindingSeverity :=
  match strToLower s with
  | "high" => .High
  | "critical" => .High
  | "medium" => .Medium
  | "low" => .Low
  | _ => .Info

/-- `analysis.rs` `Finding`.  `id` is the SQLite row id, absent until the
finding is persisted. -/
structure Finding where
  id : Option Int
  rule_id : String
  name : String
  description : String
  severity : FindingSeverity
  match_content : String
  notes : Option String
  is_false_positive : Option Bool
  severity_override : Option FindingSeverity
deriving Repr, DecidableEq

/-- `db.rs` `CustomRule` (row of the `custom_rules` table). -/
structure CustomRule where
  id : Option Int
  name : String
  description : String
  regex : String
  severity : String
  rule_id : String
deriving Repr, DecidableEq

/-- `plugins.rs` `RulePlugin`. -/
structure RulePlugin where
  id : String
  name : String
  severity : String
  regex : String
  description : Option String
deriving Repr, DecidableEq

/-- `plugins.rs` `PluginPack`. -/
structure PluginPack where
  name : String
  author : Option String
  version : String
  rules : List RulePlugin
deriving Repr, DecidableEq

/-- `db.rs` `ApiSpec` (row of the `specs` table); `content` is the stored
OpenAPI document text. -/
structure ApiSpec where
  id : Option Int
  name : String
  content : String
  version : Option String
deriving Repr, DecidableEq

/-! ## JSON values (`serde_json::Value`)

`drift.rs` inspects parsed OpenAPI documents and response bodies through
`serde_json::Value`.  The value shape is embedded directly; the parser
`serde_json::from_str` itself is an external deterministic function and is
passed to the drift detector as a parameter `parseJson : String → Option Json`
(`none` models a parse error). -/

inductive Json where
  | null
  | bool (b : Bool)
  | num (n : Int)
  | str (s : String)
  | arr (elems : List Json)
  | obj (fields : List (String × Json))

/-- `serde_json::Value::get(key)`: field lookup on objects, `None` on every
other variant. -/
def Json.getField : Json → String → Option Json
  | .obj fields, key => (fields.find? (fun kv => kv.1 == key)).map (·.2)
  | _, _ => none

/-- `serde_json::Value::as_object()`, as the underlying field list. -/
def Json.asObj : Json → Option (List (String × Json))
  | .obj fields => some fields
  | _ => none

/-- `serde_json::Value::as_array()`. -/
def Json.asArr : Json → Option (List Json)
  | .arr elems => some elems
  | _ => none

/-- `serde_json::Value::as_str()`. -/
def Json.asStr : Json → Option String
  | .str s => some s
  | _ => none

/-! ## Drift detector (`drift.rs`) -/

/-- The finding pushed by `drift.rs` when a documented path is observed with
an undocumented method (lines 59-72). -/
def undocumentedMethodFinding (tmpl specName method : String) : Finding :=
  { id := none
  , rule_id := "DRIFT-UNDOCUMENTED-METHOD"
  , name := "Undocumented API Method"
  , description := "The path '" ++ tmpl ++ "' is documented in '" ++ specName
      ++ "', but the method '" ++ method ++ "' is not."
  , severity := .Medium
  , match_content := method
  , notes := none
  , is_false_positive := some false
  , severity_override := none }

/-- The per-key finding from `compare_schema_to_body` for a body property
absent from the schema (lines 123-133). -/
def extraFieldFinding (key : String) : Finding :=
  { id := none
  , rule_id := "DRIFT-EXTRA-FIELD"
  , name := "Undocumented Field in Response"
  , description := "The field '" ++ key
      ++ "' was found in the response but is not documented in the schema."
  , severity := .Low
  , match_content := key
  , notes := none
  , is_false_positive := some false
  , severity_override := none }

/-- The per-key finding from `compare_schema_to_body` for a `required`
property missing from the body (lines 142-152). -/
def missingFieldFinding (fieldName : String) : Finding :=
  { id := none
  , rule_id := "DRIFT-MISSING-FIELD"
  , name := "Missing Required Field"
  , description := "The required field '" ++ fieldName
      ++ "' is documented but missing from the actual response."
  , severity := .Medium
  , match_content := fieldName
  , notes := none
  , is_false_positive := some false
  , severity_override := none }

/-- Whether a template part is a `\x7bname\x7d` path parameter:
`part.starts_with('\x7b') && part.ends_with('\x7d')` in `path_matches`. -/
def segIsParam (part : List Char) : Bool :=
  (part.head? == some '{') && (part.getLast? == some '}')

/-- Denotation on one segment of the regex piece `path_matches` builds for a
template part: a `\x7bname\x7d` part becomes `[^/]+`, which matches exactly the
non-empty slash-free strings; any other part becomes `regex::escape(part)`,
which matches exactly the part itself. -/
def segMatch (part seg : List Char) : Bool :=
  if segIsParam part then
    (decide (seg ≠ [])) && !(seg.contains '/')
  else
    part == seg

/-- Denotation of the whole anchored regex `^p₁/p₂/…/pₖ$` built by
`path_matches` on the split template.  Each per-part piece (`[^/]+` or an
escaped literal taken from a slash-split, hence slash-free) matches only
slash-free strings, so the regex matches a path precisely when the path's own
slash-split has the same number of segments and each segment matches the
corresponding part. -/
def segsMatch : List (List Char) → List (List Char) → Bool
  | [], [] => true
  | part :: parts, seg :: segs => segMatch part seg && segsMatch parts segs
  | _, _ => false

/-- `drift.rs` `path_matches(tmpl, path)`: split the template on `/`, turn
`\x7bname\x7d` parts into `[^/]+` and escape the rest, join with `/`, anchor with
`^…$` and match the observed path.  `Regex::new` always succeeds on this
pattern (`regex::escape` produces literal-safe text), so the unreachable
`tmpl == path` fallback of lines 107-109 is not modelled. -/
def path_matches (tmpl path : String) : Bool :=
  segsMatch (splitOnChar '/' tmpl.toList) (splitOnChar '/' path.toList)

/-- The `for (key, _val) in body_obj` loop of `compare_schema_to_body`
(lines 121-135): one `DRIFT-EXTRA-FIELD` finding per body key that
`props.contains_key` rejects. -/
def extraFieldFindings (props bodyObj : List (String × Json)) : List Finding :=
  bodyObj.filterMap (fun kv =>
    if props.any (fun p => p.1 == kv.1) then none
    else some (extraFieldFinding kv.1))

/-- The `for req in required` loop of `compare_schema_to_body` (lines
138-156): one `DRIFT-MISSING-FIELD` finding per string entry of the
`required` array absent from the body object; non-string entries are
skipped. -/
def missingFieldFindings (bodyObj : List (String × Json))
    (required : List Json) : List Finding :=
  required.filterMap (fun req =>
    match req.asStr with
    | some fieldName =>
      if bodyObj.any (fun kv => kv.1 == fieldName) then none
      else some (missingFieldFinding fieldName)
    | none => none)

/-- `drift.rs` `compare_schema_to_body(schema, body_str)`.  `parseJson`
models `serde_json::from_str`; a parse failure yields no findings.  When the
schema has an object under `properties` and the body is an object, the
extra-field findings are pushed first, then the missing-field findings. -/
def compare_schema_to_body (parseJson : String → Option Json)
    (schema : Json) (bodyStr : String) : List Finding :=
  match parseJson bodyStr with
  | none => []
  | some body =>
    match (schema.getField "properties").bind Json.asObj with
    | none => []
    | some props =>
      match body.asObj with
      | none => []
      | some bodyObj =>
        let extras := extraFieldFindings props bodyObj
        let missing :=
          match (schema.getField "required").bind Json.asArr with
          | none => []
          | some required => missingFieldFindings bodyObj required
        extras ++ missing

/-- The `for (tmpl, methods) in paths` loop of `detect_drift` (lines 34-76)
for one spec: the first template matching the observed path is handled — a
documented method leads to the `200 / application/json` schema comparison
(gated on a non-empty body starting with `\x7b`), an undocumented method pushes
one `DRIFT-UNDOCUMENTED-METHOD` finding — and the `break` ends the loop, so
later matching templates of the same spec are never examined. -/
def specPathFindings (parseJson : String → Option Json)
    (path method : String) (resBody : Option String) (specName : String) :
    List (String × Json) → List Finding
  | [] => []
  | (tmpl, methods) :: rest =>
    if path_matches tmpl path then
      match methods.getField (strToLower method) with
      | some op =>
        match resBody with
        | some actualBody =>
          if decide (actualBody ≠ "") && startsWithStr actualBody "\x7b" then
            match ((((op.getField "responses").bind
                    (fun r => r.getField "200")).bind
                    (fun r200 => r200.getField "content")).bind
                    (fun c => c.getField "application/json")).bind
                    (fun aj => aj.getField "schema") with
            | some schema => compare_schema_to_body parseJson schema actualBody
            | none => []
          else []
        | none => []
      | none => [undocumentedMethodFinding tmpl specName method]
    else specPathFindings parseJson path method resBody specName rest

/-- `drift.rs` `detect_drift(url_str, method, res_body, specs)`.
`parseUrlPath` models `Url::parse(url_str).map(|u| u.path().to_string())`
(`none` on a parse error, in which case the empty findings list is returned
at once); `parseJson` models `serde_json::from_str`.  Specs whose content
fails to parse or has no `paths` object are skipped; findings accumulate
across specs in order. -/
def detect_drift (parseJson : String → Option Json)
    (parseUrlPath : String → Option String)
    (urlStr method : String) (resBody : Option String)
    (specs : List ApiSpec) : List Finding :=
  match parseUrlPath urlStr with
  | none => []
  | some path =>
    specs.flatMap (fun spec =>
      match parseJson spec.content with
      | none => []
      | some openapi =>
        match (openapi.getField "paths").bind Json.asObj with
        | none => []
        | some paths => specPathFindings parseJson path method resBody spec.name paths)

/-! ## Asset store (`assets.rs`)

The touched SQLite tables (`assets`, `asset_history`, `findings`) are
modelled as explicit row lists.  `CURRENT_TIMESTAMP` is modelled by a `now`
parameter; `fetch_optional` on `SELECT … WHERE c = ?` returns the first
matching row in table order; `UPDATE … WHERE c = ?` rewrites every matching
row; `INSERT` appends a row, with `last_insert_rowid` modelled as one more
than the largest existing id. -/

/-- A row of the `assets` table, with the columns `add_asset` reads and
writes. -/
structure AssetRow where
  id : Int
  url : String
  method : Option String
  source : String
  status_code : Option Int
  req_body : Option String
  res_body : Option String
  last_seen : Nat
deriving Repr, DecidableEq

/-- A row of the `asset_history` table. -/
structure HistoryRow where
  asset_id : Int
  status_code : Option Int
  res_body : Option String
  timestamp : Nat
deriving Repr, DecidableEq

/-- The persistent state visible to `assets.rs`: the `assets` and
`asset_history` tables, the `findings` rows (keyed by their `asset_id`), and
the `specs` rows read by `get_api_specs` for drift detection. -/
structure Db where
  assets : List AssetRow
  history : List HistoryRow
  findings : List (Int × Finding)
  specs : List ApiSpec

/-- `assets.rs` `CreateAssetRequest`. -/
structure CreateAssetRequest where
  url : String
  source : String
  method : Option String
  status_code : Option Int
  req_body : Option String
  res_body : Option String
  findings : List Finding

/-- The rowid SQLite assigns to a fresh `assets` insert (`AUTOINCREMENT`):
one more than the largest id in the table, starting from 1. -/
def freshId (assets : List AssetRow) : Int :=
  (assets.map (·.id)).foldr max 0 + 1

/-- The findings loop at the end of `add_asset` (lines 111-125): each finding
is inserted with the resulting asset id and with
`is_false_positive.unwrap_or(false)`. -/
def insertFindings (db : Db) (assetId : Int) (fs : List Finding) : Db :=
  { db with findings := db.findings ++ fs.map (fun f =>
      (assetId, { f with is_false_positive := some (f.is_false_positive.getD false) })) }

/-- `assets.rs` `add_asset(asset)` (lines 35-128), returning the updated
state and the returned asset id.  `parseJson` and `parseUrlPath` are the
external parsers threaded to `detect_drift`, which is invoked only when the
`specs` table is non-empty.  The URL lookup is by exact match; on a hit the
stored `(status_code, res_body)` pair is re-read by id, a change appends one
history row carrying the old pair (only when the old `res_body` is non-null)
and overwrites the row's status/body while refreshing `last_seen`, and no
change refreshes `last_seen` alone.  On a miss a fresh row is inserted.  The
inner `none` branch is unreachable: the row found by URL has the id being
re-queried, so the second lookup always succeeds (`fetch_one` cannot fail). -/
def add_asset (parseJson : String → Option Json)
    (parseUrlPath : String → Option String)
    (db : Db) (asset : CreateAssetRequest) (now : Nat) : Db × Int :=
  let findings :=
    if decide (db.specs ≠ []) then
      asset.findings ++ detect_drift parseJson parseUrlPath asset.url
        (asset.method.getD "GET") asset.res_body db.specs
    else asset.findings
  match db.assets.find? (fun a => a.url == asset.url) with
  | some row =>
    let id := row.id
    match db.assets.find? (fun a => a.id == id) with
    | some stored =>
      let changed := !(asset.status_code == stored.status_code)
        || !(asset.res_body == stored.res_body)
      if changed then
        let db1 :=
          if stored.res_body.isSome then
            { db with history := db.history
                ++ [⟨id, stored.status_code, stored.res_body, now⟩] }
          else db
        let db2 := { db1 with assets := db1.assets.map (fun a =>
          if a.id == id then
            { a with status_code := asset.status_code
                   , res_body := asset.res_body
                   , last_seen := now }
          else a) }
        (insertFindings db2 id findings, id)
      else
        let db2 := { db with assets := db.assets.map (fun a =>
          if a.id == id then { a with last_seen := now } else a) }
        (insertFindings db2 id findings, id)
    | none => (db, id)
  | none =>
    let id := freshId db.assets
    let db2 := { db with assets := db.assets ++ [⟨id, asset.url, asset.method,
      asset.source, asset.status_code, asset.req_body, asset.res_body, now⟩] }
    (insertFindings db2 id findings, id)

/-- One iteration of the `for url in request.urls` loop of
`batch_add_assets` (lines 165-191): an existing URL gets `last_seen`
refreshed and counts as skipped; a new URL is inserted with method `'GET'`
and counts as added. -/
def batchAddStep (source : String) (now : Nat)
    (acc : Db × Nat × Nat) (url : String) : Db × Nat × Nat :=
  let (db, added, skipped) := acc
  match db.assets.find? (fun a => a.url == url) with
  | some _ =>
    ({ db with assets := db.assets.map (fun a =>
        if a.url == url then { a with last_seen := now } else a) },
     added, skipped + 1)
  | none =>
    ({ db with assets := db.assets ++ [⟨freshId db.assets, url, some "GET",
        source, none, none, none, now⟩] },
     added + 1, skipped)

/-- `assets.rs` `batch_add_assets(request)` (lines 160-194): fold the step
over the URL list, returning the final state and the `(added, skipped)`
counters. -/
def batch_add_assets (db : Db) (urls : List String) (source : String)
    (now : Nat) : Db × Nat × Nat :=
  urls.foldl (batchAddStep source now) (db, 0, 0)

/-! ## Interception proxy (`proxy.rs`, `lib.rs`)

`handle_request` manipulates parsed `hyper` values (`Method`, `Uri`,
`HeaderName`, `HeaderValue`).  Each parsed value is represented by its
canonical string, and the fallible library parsers
(`Method::from_bytes`, `str::parse::<Uri>`, `HeaderName::from_bytes`,
`HeaderValue::from_bytes`) are passed as `String → Option String`
parameters (`none` models a parse error). -/

/-- `lib.rs` `InterceptResult`.  Headers arrive as a JSON map; the map's
entries are modelled as an association list. -/
inductive InterceptResult where
  | Forward
  | Drop
  | ModifyRequest (method : String) (url : String)
      (headers : List (String × String)) (body : Option String)
  | ModifyResponse (status : Nat) (headers : List (String × String))
      (body : Option String)

/-- The parts of an in-flight request (`http::request::Parts`): parsed
method, parsed URI, and the header map. -/
structure RequestParts where
  method : String
  uri : String
  headers : List (String × String)
deriving Repr, DecidableEq

/-- What `handle_request` does with the request after the operator's
decision: either continue to the upstream call `client.request(req)` with
some parts and body, or return a response immediately with no upstream
call. -/
inductive RequestOutcome where
  | upstream (parts : RequestParts) (body : String)
  | shortCircuit (status : Nat) (body : String)
deriving Repr, DecidableEq

/-- `HeaderMap::insert(name, val)`: any previous entries under `name` are
replaced, the new entry is appended. -/
def insertHeader (acc : List (String × String)) (n v : String) :
    List (String × String) :=
  acc.filter (fun p => !(p.1 == n)) ++ [(n, v)]

/-- The `for (k, v) in new_headers` loop of the `ModifyRequest` arm
(proxy.rs lines 111-119): starting from a cleared header map, each entry
whose name and value both parse is inserted; an entry with an unparsable
name or value is skipped. -/
def applyModHeaders (parseHeaderName parseHeaderVal : String → Option String)
    (acc : List (String × String)) :
    List (String × String) → List (String × String)
  | [] => acc
  | (k, v) :: rest =>
    match parseHeaderName k, parseHeaderVal v with
    | some n, some w =>
      applyModHeaders parseHeaderName parseHeaderVal (insertHeader acc n w) rest
    | _, _ => applyModHeaders parseHeaderName parseHeaderVal acc rest

/-- The `match rx.await` of the request-interception block (proxy.rs lines
93-125).  The argument `decision` is `some r` when the resolver delivered
`r` and `none` when the channel was dropped (`rx.await` returned `Err`);
the code's final `_` arm covers both `ModifyResponse` and the error case by
forwarding the original bytes.  `Forward` rebuilds the original request;
`Drop` replies 403 with a fixed body and performs no upstream call;
`ModifyRequest` replaces the method and URI when they parse (keeping the
original field otherwise), rebuilds the header map from the supplied
entries skipping invalid ones, and replaces the body with the supplied body
or the empty string. -/
def applyRequestDecision
    (parseMethod parseUrl parseHeaderName parseHeaderVal : String → Option String)
    (parts : RequestParts) (bytes : String) :
    Option InterceptResult → RequestOutcome
  | some .Forward => .upstream parts bytes
  | some .Drop => .shortCircuit 403 "Request dropped by APISec Interceptor"
  | some (.ModifyRequest m u hs b) =>
    .upstream
      { method := (parseMethod m).getD parts.method
      , uri := (parseUrl u).getD parts.uri
      , headers := applyModHeaders parseHeaderName parseHeaderVal [] hs }
      (b.getD "")
  | _ => .upstream parts bytes

/-- What the proxy records for one completed flow. -/
structure FlowObservation where
  emitInterceptResponse : Bool
  resBodyStr : Option String
  assetReq : CreateAssetRequest

/-- The response-side handling of `handle_request` (proxy.rs lines 136-248)
for one flow, given the two interception flags, the request's `Upgrade`
header value, and the response body as it stands after the optional
response decision (for a websocket flow the interception block is skipped,
so it is the upstream's body).  `is_websocket` is the exact
comparison of the `Upgrade` header with `"websocket"`; a websocket flow
skips the response-interception block (line 147) and the response body
buffering (line 199), and is ingested with source `"Live Proxy (WS)"`
(line 242).  `findings` stands for the scanner output for this flow
(`Scanner::scan_text` over URL and captured bodies), which is passed into
the `CreateAssetRequest` unchanged. -/
def mkFlowObservation (captureBody interceptResponses : Bool)
    (upgradeHeader : Option String) (url method : String) (status : Nat)
    (reqBodyStr : Option String) (upstreamBody : String)
    (findings : List Finding) : FlowObservation :=
  let is_websocket := upgradeHeader == some "websocket"
  let resBodyStr :=
    if (captureBody || interceptResponses) && !is_websocket then
      some upstreamBody
    else none
  { emitInterceptResponse := interceptResponses && !is_websocket
  , resBodyStr := resBodyStr
  , assetReq :=
    { url := url
    , method := some method
    , status_code := some (Int.ofNat status)
    , source := if is_websocket then "Live Proxy (WS)" else "Live Proxy"
    , req_body := reqBodyStr
    , res_body := resBodyStr
    , findings := findings } }

/-! ## Passive scanner (`analysis.rs`, `plugins.rs`)

Every detector of `Scanner::scan_text` is embedded.  The deterministic
external library functions it calls are collected in one record `RegexLib`
passed to the scanner: a compiled `regex::Regex` is determined by its
pattern string, so `Regex::new(pat).unwrap().find_iter(content)` is modelled
as `lib.find pat content` (the built-in patterns are valid literals, so the
`unwrap` never panics), and the fallible compilations in the custom-rule and
plugin paths are guarded by `lib.compiles`.  The one genuinely
run-dependent ingredient — the iteration order of the per-candidate
character-frequency `HashMap` in `calculate_entropy` — is threaded through
explicitly as `orderOf`.  The `f64` accumulation over that order is
idealised as an exact `ℚ` sum; since `f64` addition rounds
order-dependently, this idealisation is *not* order-faithful, and no
theorem in this file derives an order-invariance property from it. -/

structure RegexLib where
  /-- `Regex::new(pat).unwrap().find_iter(content)`: the matched texts. -/
  find : String → String → List String
  /-- `Regex::new(pat).unwrap().captures_iter(content)`: for each match, the
  capture groups (index 0 is the whole match, `none` an unmatched group). -/
  captures : String → String → List (List (Option String))
  /-- `Regex::new(pat).unwrap().is_match(content)`. -/
  isMatch : String → String → Bool
  /-- Whether `Regex::new(pat)` succeeds. -/
  compiles : String → Bool
  /-- `base64::URL_SAFE_NO_PAD.decode(s).or_else(|_| URL_SAFE.decode(s))`
  followed by `String::from_utf8`. -/
  b64UrlDecode : String → Option String
  /-- `base64::STANDARD.decode(s)` followed by `String::from_utf8`. -/
  b64StdDecode : String → Option String
  /-- `format!("\x7b:.2\x7d", x)` under the exact-arithmetic idealisation. -/
  fmt2 : ℚ → String
  /-- `f64::log2` under the exact-arithmetic idealisation. -/
  log2 : ℚ → ℚ

/-- Shorthand for the fully-populated findings the detectors push. -/
def mkFinding (ruleId fname desc : String) (sev : FindingSeverity)
    (matched : String) (notes : Option String := none) : Finding :=
  { id := none
  , rule_id := ruleId
  , name := fname
  , description := desc
  , severity := sev
  , match_content := matched
  , notes := notes
  , is_false_positive := some false
  , severity_override := none }

/-- `Scanner::scan_auth`: JWT detection (decode the middle Base64URL part
for the description, truncate the matched token to 80 characters) followed
by HTTP Basic credential detection (Base64 decode, require a `:`). -/
def scan_auth (lib : RegexLib) (content : String) : List Finding :=
  let jwts := (lib.find "ey[A-Za-z0-9\\-_]+\\.ey[A-Za-z0-9\\-_]+\\.[A-Za-z0-9\\-_]+" content).filterMap
    (fun token =>
      let parts := splitOnChar '.' token.toList
      if parts.length == 3 then
        match lib.b64UrlDecode (String.mk (parts.getD 1 [])) with
        | some jsonStr =>
          some (mkFinding "AUTH-JWT" "JWT Token"
            ("Exposed JWT. Payload: " ++ jsonStr) .High (token.take 80))
        | none => none
      else none)
  let basics := (lib.captures "(?i)Basic\\s+([a-zA-Z0-9+/=]+)" content).filterMap
    (fun caps =>
      match caps.getD 1 none with
      | some b64 =>
        match lib.b64StdDecode b64 with
        | some creds =>
          if creds.toList.contains ':' then
            some (mkFinding "AUTH-BASIC" "Basic Auth credentials"
              ("Exposed credentials: " ++ creds) .High b64)
          else none
        | none => none
      | none => none)
  jwts ++ basics

/-- `Scanner::scan_pci`: BIN-aware payment-card regex. -/
def scan_pci (lib : RegexLib) (content : String) : List Finding :=
  (lib.find "\\b(?:4[0-9]\x7b12\x7d(?:[0-9]\x7b3\x7d)?|5[1-5][0-9]\x7b14\x7d|3[47][0-9]\x7b13\x7d|3(?:0[0-5]|[68][0-9])[0-9]\x7b11\x7d|6(?:011|5[0-9]\x7b2\x7d)[0-9]\x7b12\x7d|(?:2131|1800|35[0-9]\x7b3\x7d)[0-9]\x7b11\x7d)\\b" content).map
    (fun m => mkFinding "PCI-CARD" "Unmasked Payment Card"
      "Plaintext credit card data detected. This is a severe PCI DSS violation."
      .High m (some "Card pattern matched industry standard BIN ranges."))

/-- `Scanner::scan_vin`: 17-character VIN shape. -/
def scan_vin (lib : RegexLib) (content : String) : List Finding :=
  (lib.find "\\b[A-HJ-NPR-Z0-9]\x7b13\x7d[0-9]\x7b4\x7d\\b" content).map
    (fun m => mkFinding "DATA-VIN" "Vehicle Identification Number (VIN)"
      "Discovery of a 17-character VIN in request/response data. This is often processed as PII/Asset data."
      .Low m (some "Standard 17-digit ISO 3779 compliant pattern."))

/-- The fixed `compliance_rules` table of `Scanner::scan_compliance`:
`(rule_id, name, description, keywords)`. -/
def complianceRules : List (String × String × String × List String) :=
  [ ("COMP-HIPAA", "HIPAA Data Marker",
     "Potentially protected health information (ePHI) or healthcare-specific terminology detected.",
     ["Patient ID", "medical record", "health plan", "diagnosis code", "ePHI"])
  , ("COMP-SOC2", "SOC2 Compliance Keyword",
     "Sensitive internal operational or security terminology associated with SOC 2 requirements.",
     ["audit log", "access control list", "confidentiality policy", "availability report"])
  , ("COMP-ISO27001", "ISO 27001 Marker",
     "Reference to ISO 27001 security standards or documentation requirements.",
     ["ISMS", "Statement of Applicability", "Annex A", "security objective", "risk assessment"])
  , ("COMP-GDPR", "GDPR Data Subject Info",
     "References to data subject rights or terminology regulated by GDPR.",
     ["data subject", "right to be forgotten", "consent withdrawal", "processing purpose", "data controller"]) ]

/-- `Scanner::scan_compliance`: one finding per contained keyword of each
compliance rule, then the SWIFT/BIC regex. -/
def scan_compliance (lib : RegexLib) (content : String) : List Finding :=
  (complianceRules.flatMap (fun rule =>
    match rule with
    | (rid, rname, rdesc, keywords) =>
      keywords.filterMap (fun kw =>
        if containsStr content kw then
          some (mkFinding rid rname rdesc .Info kw
            (some ("Found compliance keyword: " ++ kw)))
        else none)))
  ++ (lib.find "\\b[A-Z]\x7b4\x7d[A-Z]\x7b2\x7d[A-Z0-9]\x7b2\x7d([A-Z0-9]\x7b3\x7d)?\\b" content).map
    (fun m => mkFinding "COMP-FIN-SWIFT" "SWIFT/BIC Code"
      "Financial institution identifier detected (Potential PCI/Financial leak)."
      .Medium m)

/-- `Scanner::scan_infrastructure`: the nine cloud/SaaS credential regexes,
concatenated in source order. -/
def scan_infrastructure (lib : RegexLib) (content : String) : List Finding :=
  ((lib.find "\\b(AKIA|ASIA)[0-9A-Z]\x7b16\x7d\\b" content).map
    (fun m => mkFinding "INFRA-AWS-KEY" "AWS Access Key"
      "AWS Access Key ID detected. Potential full cloud account access." .High m))
  ++ ((lib.captures "(?i)aws_secret_access_key[\\s=:]+([a-zA-Z0-9+/]\x7b40\x7d)" content).filterMap
    (fun caps =>
      match caps.getD 1 none with
      | some v => some (mkFinding "INFRA-AWS-SECRET" "AWS Secret Key"
          "AWS Secret Access Key found. Immediate high risk." .High v)
      | none => none))
  ++ ((lib.find "\\bAIza[0-9A-Za-z\\\\-_]\x7b35\x7d\\b" content).map
    (fun m => mkFinding "INFRA-GCP-KEY" "GCP API Key"
      "Google Cloud Platform API Key detected." .Medium m))
  ++ ((lib.find "sk_live_[0-9a-zA-Z]\x7b24\x7d" content).map
    (fun m => mkFinding "INFRA-STRIPE-KEY" "Stripe Secret Key"
      "Active Stripe Secret Key found. Processing risk." .High m))
  ++ ((lib.find "https://hooks.slack.com/services/T[a-zA-Z0-9_]+/B[a-zA-Z0-9_]+/[a-zA-Z0-9_]+" content).map
    (fun m => mkFinding "SaaS-SLACK-WEBHOOK" "Slack Incoming Webhook"
      "Slack webhook URL found. Can be used for message spoofing." .Medium m))
  ++ ((lib.find "ghp_[a-zA-Z0-9]\x7b36\x7d" content).map
    (fun m => mkFinding "SaaS-GITHUB-PAT" "GitHub Personal Access Token"
      "GitHub PAT detected. Potential repository access." .High m))
  ++ ((lib.find "\\b[h|H][e|E][r|R][o|O][k|K][u|U].*[0-9A-F]\x7b8\x7d-[0-9A-F]\x7b4\x7d-[0-9A-F]\x7b4\x7d-[0-9A-F]\x7b4\x7d-[0-9A-F]\x7b12\x7d\\b" content).map
    (fun m => mkFinding "INFRA-HEROKU-KEY" "Heroku API Key"
      "Heroku Platform API Key found." .High m))
  ++ ((lib.find "AIzaSy[A-Za-z0-9\\-_]\x7b33\x7d" content).map
    (fun m => mkFinding "SaaS-FIREBASE-KEY" "Firebase API Key"
      "Firebase API key discovered. Check for permissive database rules." .Medium m))
  ++ ((lib.find "SG\\.[a-zA-Z0-9\\-_]\x7b22\x7d\\.[a-zA-Z0-9\\-_]\x7b43\x7d" content).map
    (fun m => mkFinding "SaaS-SENDGRID-KEY" "SendGrid API Key"
      "SendGrid API key detected. Can be used for email spoofing." .High m))

/-- `Scanner::scan_bola`: object-id-in-URL pattern. -/
def scan_bola (lib : RegexLib) (content : String) : List Finding :=
  (lib.find "/(?:user|account|order|invoice)s?/(?:[0-9]\x7b3,\x7d|[a-f0-9]\x7b8\x7d-[0-9a-f]\x7b4\x7d-[0-9a-f]\x7b4\x7d-[0-9a-f]\x7b4\x7d-[0-9a-f]\x7b12\x7d)\\b" content).map
    (fun m => mkFinding "VULN-BOLA-ID" "Potential BOLA Pattern"
      "Direct reference to an object ID in URL. Ensure authorization checks are applied."
      .Medium m)

/-- `Scanner::scan_leaks`: RFC1918 private IPs, then stack-trace
signatures. -/
def scan_leaks (lib : RegexLib) (content : String) : List Finding :=
  ((lib.find "\\b(?:10\\.\\d\x7b1,3\x7d\\.\\d\x7b1,3\x7d\\.\\d\x7b1,3\x7d|192\\.168\\.\\d\x7b1,3\x7d\\.\\d\x7b1,3\x7d|172\\.(?:1[6-9]|2\\d|3[0-1])\\.\\d\x7b1,3\x7d\\.\\d\x7b1,3\x7d)\\b" content).map
    (fun m => mkFinding "LEAK-INTERNAL-IP" "Internal IP Address Disclosure"
      "Private network IP address found in response. Reveals internal infrastructure."
      .Low m))
  ++ ((lib.find "(?i)(at\\s+[a-zA-Z0-9$_.]+\\([a-zA-Z0-9$_.]+\\.java:\\d+\\)|stack\\s+trace|Exception\\s+in\\s+thread)" content).map
    (fun m => mkFinding "LEAK-STACK-TRACE" "Stack Trace Disclosure"
      "Detailed application stack trace detected. Reveals internal codebase structure."
      .Medium m))

/-- `Scanner::scan_pii`: email, US phone, US SSN, generic secret (capture
group 2), verbose headers, then the passive missing-HSTS / missing-CSP
checks gated on the blob containing `HTTP/`. -/
def scan_pii (lib : RegexLib) (content : String) : List Finding :=
  ((lib.find "(?i)[a-z0-9._%+-]+@[a-z0-9.-]+\\.[a-z]\x7b2,\x7d" content).map
    (fun m => mkFinding "PII-EMAIL" "Email address" "Exposed email address" .Low m))
  ++ ((lib.find "\\b(?:\\+?1[-. ]?)?\\(?([0-9]\x7b3\x7d)\\)?[-. ]?([0-9]\x7b3\x7d)[-. ]?([0-9]\x7b4\x7d)\\b" content).map
    (fun m => mkFinding "PII-PHONE" "Phone number" "Exposed phone number" .Low m))
  ++ ((lib.find "\\b([0-9]\x7b3\x7d-[0-9]\x7b2\x7d-[0-9]\x7b4\x7d)\\b" content).map
    (fun m => mkFinding "PII-SSN" "Social Security Number (SSN)"
      "Exposed US Social Security Number" .High m))
  ++ ((lib.captures "(?i)(api[_-]?key|secret|token)[\\s=:]+([a-zA-Z0-9_\\-]\x7b20,\x7d)" content).filterMap
    (fun caps =>
      match caps.getD 2 none with
      | some v => some (mkFinding "AUTH-SECRET" "API secret/key"
          "High entropy string associated with security keywords" .High v)
      | none => none))
  ++ ((lib.find "(?i)(Server|X-Powered-By|X-AspNet-Version):\\s*.*" content).map
    (fun m => mkFinding "CONF-VERBOSE-HEADER" "Verbose Information Header"
      "Server or technology version header detected. Leaks implementation details."
      .Info m))
  ++ (if containsStr content "HTTP/" then
      (if !containsStr (strToLower content) "strict-transport-security" then
        [mkFinding "CONF-MISSING-HSTS" "Missing HSTS Header"
          "Strict-Transport-Security header is missing. Sensitive data may be sent over HTTP."
          .Low "Header block"]
      else [])
      ++ (if !containsStr (strToLower content) "content-security-policy" then
        [mkFinding "CONF-MISSING-CSP" "Missing CSP Header"
          "Content-Security-Policy header is missing. Risk of XSS and data injection."
          .Low "Header block"]
      else [])
    else [])

/-- `Scanner::scan_rate_limiting`: rate-limit header names. -/
def scan_rate_limiting (lib : RegexLib) (content : String) : List Finding :=
  (lib.find "(?i)(X-RateLimit-Limit|RateLimit-Limit|X-RateLimit-Remaining)" content).map
    (fun m => mkFinding "CONF-RATE-LIMIT" "Rate Limiting Headers"
      "Rate limiting headers detected. Beneficial but reveals quota limits to attackers."
      .Info m)

/-- `Scanner::scan_injection`: SQL keyword patterns, then XSS vectors. -/
def scan_injection (lib : RegexLib) (content : String) : List Finding :=
  ((lib.find "(?i)(SELECT\\s+.*\\s+FROM|UNION\\s+ALL\\s+SELECT|INSERT\\s+INTO\\s+.*\\s+VALUES|UPDATE\\s+.*\\s+SET|DELETE\\s+FROM)" content).map
    (fun m => mkFinding "INJ-SQL" "SQL Injection Pattern"
      "Possible SQL injection keywords detected in payload" .High m))
  ++ ((lib.find "(?i)(<script>|javascript:|onerror\\s*=|onload\\s*=|alert\\()" content).map
    (fun m => mkFinding "INJ-XSS" "XSS Pattern"
      "Cross-site scripting (XSS) vectors detected" .High m))

/-- `Scanner::scan_misconfig`: permissive CORS. -/
def scan_misconfig (lib : RegexLib) (content : String) : List Finding :=
  (lib.find "(?i)Access-Control-Allow-Origin:\\s*\\*" content).map
    (fun m => mkFinding "CONF-CORS-ALL" "Permissive CORS Policy"
      "Access-Control-Allow-Origin is set to *. This allows any domain to access the resource."
      .Medium m)

/-- The fixed sensitive-field list of `Scanner::scan_graphql`. -/
def graphqlSensitiveFields : List String :=
  ["password", "secret", "token", "apiKey", "creditCard", "ssn", "hash"]

/-- `Scanner::scan_graphql`: introspection tokens, the batch heuristic
(`[` present, `query` present and occurring more than five times), then the
per-field sensitive-name regexes built with `format!`. -/
def scan_graphql (lib : RegexLib) (content : String) : List Finding :=
  ((lib.find "(?i)(__schema|__type|__typekind|__field|__inputvalue)" content).map
    (fun m => mkFinding "VULN-GRAPHQL-INTRO" "GraphQL Introspection Detected"
      "GraphQL introspection query detected. This reveals the entire API schema, including hidden fields and types."
      .Medium m))
  ++ (if containsStr content "[" && containsStr content "query"
         && countOccStr content "query" > 5 then
      [mkFinding "VULN-GRAPHQL-BATCH" "Potential GraphQL Batch Attack"
        "Multiple GraphQL queries detected in a single request. Can be used for brute-forcing or resource exhaustion."
        .Medium "Multiple query definitions in batch"]
    else [])
  ++ (graphqlSensitiveFields.filterMap (fun field =>
      if lib.isMatch ("(?i)\"" ++ field ++ "\\s*\"") content then
        some (mkFinding "LEAK-GRAPHQL-SENSITIVE" "Sensitive Field in GraphQL Payload"
          ("GraphQL payload contains potential sensitive field: '" ++ field
            ++ "'. Ensure proper field-level authorization.")
          .Low field)
      else none))

/-- `Scanner::scan_mass_assignment`: privilege fields with boolean/string
values. -/
def scan_mass_assignment (lib : RegexLib) (content : String) : List Finding :=
  (lib.find "(?i)\"(isAdmin|is_admin|role|permissions|account_type|is_verified|privileges)\"\\s*:\\s*(true|false|\"[^\"]+\")" content).map
    (fun m => mkFinding "VULN-MASS-ASSIGNMENT" "Potential Mass Assignment"
      "Sensitive privilege field detected in request body. Ensure these fields cannot be modified by end-users."
      .Medium m)

/-- `Scanner::scan_ssrf`: URL parameters pointing at loopback / link-local
addresses. -/
def scan_ssrf (lib : RegexLib) (content : String) : List Finding :=
  (lib.find "(?i)(?:url|u|link|src|dest|redirect|callback)=(?:https?|ftp)://(?:localhost|127\\.0\\.0\\.1|169\\.254\\.169\\.254|0\\.0\\.0\\.0|\\[::1\\])" content).map
    (fun m => mkFinding "VULN-SSRF" "Potential SSRF Vector"
      "Input parameter contains internal or loopback address. Potential Server-Side Request Forgery."
      .High m)

/-- `Scanner::scan_nosql`: MongoDB operator objects. -/
def scan_nosql (lib : RegexLib) (content : String) : List Finding :=
  (lib.find "\\\x7b\\s*\"\\$(?:gt|lt|ne|eq|in|nin|regex|where)\"\\s*:\\s*[^\x7d]+\\\x7d" content).map
    (fun m => mkFinding "INJ-NOSQL" "NoSQL Injection Pattern"
      "MongoDB-style query operator detected. Potential NoSQL injection." .High m)

/-- `Scanner::scan_assets_mgmt`: outdated version path segments, then
sensitive file extensions. -/
def scan_assets_mgmt (lib : RegexLib) (content : String) : List Finding :=
  ((lib.find "(?i)/(v0|v1|beta|deprecated|test|old|staging)/" content).map
    (fun m => mkFinding "MGMT-OUTDATED-API" "Outdated API Version"
      "Endpoint belongs to an outdated or non-production version (v1, beta, etc.). Old versions often lack security patches."
      .Low m))
  ++ ((lib.find "(?i)\\.(env|git|config|bak|zip|sql|tar|gz|key)\\b" content).map
    (fun m => mkFinding "CONF-SENSITIVE-FILE" "Sensitive File Reference"
      "Sensitive file extension (.env, .git, .bak) detected in URL or body. Potential source/config exposure."
      .High m))

/-- The character-frequency table `calculate_entropy` builds: one entry per
distinct character of `s` with its occurrence count (the contents of the
`HashMap`, whose iteration order is arbitrary). -/
def charFreqs (s : String) : List (Char × Nat) :=
  s.toList.dedup.map (fun c => (c, s.toList.count c))

/-- `Scanner::calculate_entropy(s)`: starting from `0.0`, subtract
`p * p.log2()` for each frequency, visiting the `HashMap` values in the
order given by `freqs`.  Note that `len` is `s.len()`, the UTF-8 byte
length, while the counts are per `char`.  The source accumulates in `f64`,
whose addition rounds order-dependently (and whose `log2` is the platform
libm's); the `ℚ` sum here is an idealisation of one such run, so facts
true of `ℚ` sums but not of `f64` sums — in particular invariance under
reordering `freqs` — must not be read back onto the program. -/
def calculate_entropy (lg : ℚ → ℚ) (freqs : List (Char × Nat)) (s : String) : ℚ :=
  let len : ℚ := (s.utf8ByteSize : ℚ)
  (freqs.map (fun cc => -(((cc.2 : ℚ) / len) * lg ((cc.2 : ℚ) / len)))).sum

/-- `Scanner::scan_entropy`: each 20-64 character candidate (skipped when it
contains `<` or `>`) gets its Shannon entropy computed over the frequency
`HashMap` iterated in the order `orderOf` assigns to it; entropies above
`4.5` produce a Medium finding whose description and notes embed the
formatted value. -/
def scan_entropy (lib : RegexLib) (orderOf : String → List (Char × Nat))
    (content : String) : List Finding :=
  (lib.find "[a-zA-Z0-9/\\+=]\x7b20,64\x7d" content).filterMap (fun s =>
    if s.toList.contains '<' || s.toList.contains '>' then none
    else
      let entropy := calculate_entropy lib.log2 (orderOf s) s
      if (9 : ℚ) / 2 < entropy then
        some (mkFinding "CONF-HIGH-ENTROPY" "High Entropy String Detected"
          ("Random-looking string with " ++ lib.fmt2 entropy
            ++ " bits of entropy. Likely an encoded key, secret, or session token.")
          .Medium s (some ("Entropy: " ++ lib.fmt2 entropy)))
      else none)

/-- `Scanner::scan_grpc`: the `application/grpc` content-type marker, then
the length-prefixed binary-frame heuristic.  `bytes[0]` of the UTF-8
encoding equals the first character's code point whenever it is below
`0x80`, so comparing it with `0` or `1` is the head-character test; `len()`
is the byte length. -/
def scan_grpc (content : String) : List Finding :=
  (if containsStr content "application/grpc" then
    [mkFinding "MGMT-GRPC-API" "gRPC API Endpoint Detected"
      "This endpoint uses gRPC (Protocol Buffers). Ensure binary message integrity and lack of sensitive data in field names."
      .Info "application/grpc"]
  else [])
  ++ (if containsStr content "\x00" && content.utf8ByteSize > 5 then
      (match content.toList.head? with
       | some c =>
         if (c.toNat == 0 || c.toNat == 1) && content.utf8ByteSize > 5 then
           [mkFinding "BASE-BINARY-PROTO" "Binary/gRPC Message Frame"
             "Detected length-prefixed binary frame characteristic of gRPC/Protobuf."
             .Info "Binary frame start detected"]
         else []
       | none => [])
    else [])

/-- `plugins.rs` `scan_with_plugins(content, plugins)`: every rule of every
pack is compiled — a rule whose regex fails to compile is skipped — and
each match produces a finding with the pack's severity string mapped onto
`FindingSeverity` and a `Pack: name vversion` note. -/
def scan_with_plugins (lib : RegexLib) (content : String)
    (plugins : List PluginPack) : List Finding :=
  plugins.flatMap (fun pack =>
    pack.rules.flatMap (fun rule =>
      if lib.compiles rule.regex then
        (lib.find rule.regex content).map (fun m =>
          let severity :=
            match strToLower rule.severity with
            | "critical" => FindingSeverity.High
            | "high" => FindingSeverity.High
            | "medium" => FindingSeverity.Medium
            | "low" => FindingSeverity.Low
            | _ => FindingSeverity.Info
          { id := none
          , rule_id := rule.id
          , name := rule.name
          , description := rule.description.getD rule.name
          , severity := severity
          , match_content := m
          , notes := some ("Pack: " ++ pack.name ++ " v" ++ pack.version)
          , is_false_positive := some false
          , severity_override := none })
      else []))

/-- `Scanner::scan_custom(content, rules)`: like the plugin path but over
the stored custom rules, with `FindingSeverity::from_str` on the rule's
severity; a rule whose regex fails to compile contributes nothing. -/
def scan_custom (lib : RegexLib) (content : String)
    (rules : List CustomRule) : List Finding :=
  rules.flatMap (fun rule =>
    if lib.compiles rule.regex then
      (lib.find rule.regex content).map (fun m =>
        { id := none
        , rule_id := rule.rule_id
        , name := rule.name
        , description := rule.description
        , severity := FindingSeverity.fromStr rule.severity
        , match_content := m
        , notes := none
        , is_false_positive := some false
        , severity_override := none })
    else [])

/-- `Scanner::scan_text(content, custom_rules, plugins)`: run every detector
and concatenate the findings in source order. -/
def scan_text (lib : RegexLib) (orderOf : String → List (Char × Nat))
    (content : String) (customRules : List CustomRule)
    (plugins : List PluginPack) : List Finding :=
  scan_pii lib content
  ++ scan_auth lib content
  ++ scan_pci lib content
  ++ scan_vin lib content
  ++ scan_compliance lib content
  ++ scan_infrastructure lib content
  ++ scan_injection lib content
  ++ scan_misconfig lib content
  ++ scan_bola lib content
  ++ scan_leaks lib content
  ++ scan_graphql lib content
  ++ scan_rate_limiting lib content
  ++ scan_mass_assignment lib content
  ++ scan_ssrf lib content
  ++ scan_nosql lib content
  ++ scan_assets_mgmt lib content
  ++ scan_entropy lib orderOf content
  ++ scan_grpc content
  ++ scan_with_plugins lib content plugins
  ++ scan_custom lib content customRules

/-! ## Theorems

Helper predicates and lemmas first, then one theorem per claim. -/

/-- Recogniser for `DRIFT-EXTRA-FIELD` findings. -/
def isExtraFieldFinding (f : Finding) : Bool :=
  f.rule_id == "DRIFT-EXTRA-FIELD"

/-- Recogniser for `DRIFT-MISSING-FIELD` findings. -/
def isMissingFieldFinding (f : Finding) : Bool :=
  f.rule_id == "DRIFT-MISSING-FIELD"

/-- Recogniser for `DRIFT-UNDOCUMENTED-METHOD` findings. -/
def isUndocMethodFinding (f : Finding) : Bool :=
  f.rule_id == "DRIFT-UNDOCUMENTED-METHOD"

/-- The string entries of a schema's `required` array, exactly as the
comparison loop reads them (non-string entries are skipped); empty when the
schema has no `required` array. -/
def schemaRequiredKeys (schema : Json) : List String :=
  match (schema.getField "required").bind Json.asArr with
  | none => []
  | some reqs => reqs.filterMap Json.asStr

@[simp] lemma isExtra_extraFieldFinding (k : String) :
    isExtraFieldFinding (extraFieldFinding k) = true := rfl

@[simp] lemma isMissing_extraFieldFinding (k : String) :
    isMissingFieldFinding (extraFieldFinding k) = false := rfl

@[simp] lemma isUndoc_extraFieldFinding (k : String) :
    isUndocMethodFinding (extraFieldFinding k) = false := rfl

@[simp] lemma isExtra_missingFieldFinding (k : String) :
    isExtraFieldFinding (missingFieldFinding k) = false := rfl

@[simp] lemma isMissing_missingFieldFinding (k : String) :
    isMissingFieldFinding (missingFieldFinding k) = true := rfl

@[simp] lemma isUndoc_missingFieldFinding (k : String) :
    isUndocMethodFinding (missingFieldFinding k) = false := rfl

@[simp] lemma isUndoc_undocumentedMethodFinding (t s m : String) :
    isUndocMethodFinding (undocumentedMethodFinding t s m) = true := rfl

lemma extraFieldFindings_cons (props : List (String × Json))
    (kv : String × Json) (rest : List (String × Json)) :
    extraFieldFindings props (kv :: rest)
      = (if props.any (fun p => p.1 == kv.1) then []
         else [extraFieldFinding kv.1]) ++ extraFieldFindings props rest := by
  cases hpa : props.any (fun p => p.1 == kv.1) with
  | true => simp only [extraFieldFindings, List.filterMap_cons, hpa]; rfl
  | false => simp only [extraFieldFindings, List.filterMap_cons, hpa]; rfl

lemma missingFieldFindings_cons (bodyObj : List (String × Json))
    (req : Json) (rest : List Json) :
    missingFieldFindings bodyObj (req :: rest)
      = (match req.asStr with
         | some fieldName =>
           if bodyObj.any (fun kv => kv.1 == fieldName) then []
           else [missingFieldFinding fieldName]
         | none => []) ++ missingFieldFindings bodyObj rest := by
  simp only [missingFieldFindings, List.filterMap_cons]
  cases hs : req.asStr with
  | none => simp
  | some fieldName =>
    cases hmem : bodyObj.any (fun kv => kv.1 == fieldName) with
    | true => simp [hmem]
    | false => simp [hmem]

lemma countP_extraFieldFindings_extra (props bodyObj : List (String × Json)) :
    (extraFieldFindings props bodyObj).countP isExtraFieldFinding
      = bodyObj.countP (fun kv => !props.any (fun p => p.1 == kv.1)) := by
  induction bodyObj with
  | nil => rfl
  | cons kv rest ih =>
    rw [extraFieldFindings_cons, List.countP_append, List.countP_cons, ih]
    cases hpa : props.any (fun p => p.1 == kv.1) with
    | true => simp [hpa]
    | false => simp [hpa, Nat.add_comm]

lemma countP_extraFieldFindings_zero (q : Finding → Bool)
    (hq : ∀ k, q (extraFieldFinding k) = false)
    (props bodyObj : List (String × Json)) :
    (extraFieldFindings props bodyObj).countP q = 0 := by
  induction bodyObj with
  | nil => rfl
  | cons kv rest ih =>
    rw [extraFieldFindings_cons, List.countP_append, ih]
    cases hpa : props.any (fun p => p.1 == kv.1) with
    | true => simp
    | false => simp [List.countP_cons, hq]

lemma countP_missingFieldFindings_missing (bodyObj : List (String × Json))
    (reqs : List Json) :
    (missingFieldFindings bodyObj reqs).countP isMissingFieldFinding
      = (reqs.filterMap Json.asStr).countP
          (fun f => !bodyObj.any (fun kv => kv.1 == f)) := by
  induction reqs with
  | nil => rfl
  | cons req rest ih =>
    rw [missingFieldFindings_cons, List.countP_append, ih]
    cases hs : req.asStr with
    | none => simp [List.filterMap_cons, hs]
    | some fieldName =>
      cases hmem : bodyObj.any (fun kv => kv.1 == fieldName) with
      | true => simp [List.filterMap_cons, hs, List.countP_cons, hmem]
      | false =>
        simp [List.filterMap_cons, hs, List.countP_cons, hmem, Nat.add_comm]

lemma countP_missingFieldFindings_zero (q : Finding → Bool)
    (hq : ∀ k, q (missingFieldFinding k) = false)
    (bodyObj : List (String × Json)) (reqs : List Json) :
    (missingFieldFindings bodyObj reqs).countP q = 0 := by
  induction reqs with
  | nil => rfl
  | cons req rest ih =>
    rw [missingFieldFindings_cons, List.countP_append, ih]
    cases hs : req.asStr with
    | none => simp
    | some fieldName =>
      cases hmem : bodyObj.any (fun kv => kv.1 == fieldName) with
      | true => simp [hmem]
      | false => simp [hmem, List.countP_cons, hq]

/-- Both kinds of schema-comparison findings carry rule ids other than
`DRIFT-UNDOCUMENTED-METHOD`. -/
lemma countP_undoc_compare (parseJson : String → Option Json)
    (schema : Json) (bodyStr : String) :
    (compare_schema_to_body parseJson schema bodyStr).countP isUndocMethodFinding = 0 := by
  simp only [compare_schema_to_body]
  split
  · rfl
  split
  · rfl
  split
  · rfl
  rw [List.countP_append,
    countP_extraFieldFindings_zero _ (fun k => isUndoc_extraFieldFinding k)]
  split
  · rfl
  · rw [countP_missingFieldFindings_zero _ (fun k => isUndoc_missingFieldFinding k)]

lemma splitOnChar_not_mem (sep : Char) (l : List Char) (h : sep ∉ l) :
    splitOnChar sep l = [l] := by
  induction l with
  | nil => rfl
  | cons c cs ih =>
    have hc : ¬(c = sep) := fun he => h (he ▸ List.mem_cons_self c cs)
    have hcs : sep ∉ cs := fun hm => h (List.mem_cons_of_mem c hm)
    simp only [splitOnChar, if_neg hc, ih hcs]

lemma splitOnChar_sep_cons (sep : Char) (l : List Char) :
    splitOnChar sep (sep :: l) = [] :: splitOnChar sep l := by
  simp [splitOnChar]

lemma splitOnChar_append_prefix (sep : Char) (pre : List Char)
    (hpre : sep ∉ pre) (l : List Char) :
    splitOnChar sep (pre ++ sep :: l) = pre :: splitOnChar sep l := by
  induction pre with
  | nil => simp [splitOnChar_sep_cons]
  | cons c cs ih =>
    have hc : ¬(c = sep) := fun he => hpre (he ▸ List.mem_cons_self c cs)
    have hcs : sep ∉ cs := fun hm => hpre (List.mem_cons_of_mem c hm)
    simp only [List.cons_append, splitOnChar, if_neg hc, List.append_eq]
    rw [ih hcs]

lemma segsMatch_length_ne (parts segs : List (List Char))
    (h : parts.length ≠ segs.length) : segsMatch parts segs = false := by
  induction parts generalizing segs with
  | nil =>
    cases segs with
    | nil => exact absurd rfl h
    | cons s ss => rfl
  | cons p ps ih =>
    cases segs with
    | nil => rfl
    | cons s ss =>
      cases hsm : segMatch p s with
      | false => simp [segsMatch, hsm]
      | true =>
        simp only [segsMatch, hsm, Bool.true_and]
        exact ih ss (fun hh => h (by simp [hh]))

/-- Claim C5 (drift path matching): a `\x7bname\x7d` template segment matches
exactly the non-empty slash-free segments and a literal segment matches only
itself, with the whole path anchored (segment counts must agree); in
particular `/users/\x7bid\x7d` matches `/users/123` and `/users/abc-42` — and
more generally `/users/` followed by any non-empty slash-free segment — but
not `/users/123/orders`. -/
theorem drift_path_template_matching :
    (path_matches "/users/\x7bid\x7d" "/users/123" = true
      ∧ path_matches "/users/\x7bid\x7d" "/users/abc-42" = true
      ∧ path_matches "/users/\x7bid\x7d" "/users/123/orders" = false)
    ∧ (∀ seg : List Char, seg ≠ [] → seg.contains '/' = false →
        path_matches "/users/\x7bid\x7d"
          (String.mk ('/' :: 'u' :: 's' :: 'e' :: 'r' :: 's' :: '/' :: seg)) = true)
    ∧ (∀ part seg : List Char, segIsParam part = true →
        segMatch part seg = ((decide (seg ≠ [])) && !(seg.contains '/')))
    ∧ (∀ part seg : List Char, segIsParam part = false →
        segMatch part seg = (part == seg))
    ∧ (∀ parts segs : List (List Char), parts.length ≠ segs.length →
        segsMatch parts segs = false) := by
  refine ⟨⟨by decide, by decide, by decide⟩, ?_, ?_, ?_, ?_⟩
  · intro seg hne hns
    have hnm : '/' ∉ seg := by simpa using hns
    have hsplit : splitOnChar '/' ('/' :: 'u' :: 's' :: 'e' :: 'r' :: 's' :: '/' :: seg)
        = [[], ['u', 's', 'e', 'r', 's'], seg] := by
      have h1 : splitOnChar '/' (['u', 's', 'e', 'r', 's'] ++ '/' :: seg)
          = ['u', 's', 'e', 'r', 's'] :: splitOnChar '/' seg :=
        splitOnChar_append_prefix '/' ['u', 's', 'e', 'r', 's'] (by decide) seg
      have h2 := splitOnChar_sep_cons '/' (['u', 's', 'e', 'r', 's'] ++ '/' :: seg)
      rw [h1, splitOnChar_not_mem '/' seg hnm] at h2
      exact h2
    have htm : splitOnChar '/' "/users/\x7bid\x7d".toList
        = [[], ['u', 's', 'e', 'r', 's'], ['\x7b', 'i', 'd', '\x7d']] := by decide
    show segsMatch _ _ = true
    rw [show (String.mk ('/' :: 'u' :: 's' :: 'e' :: 'r' :: 's' :: '/' :: seg)).toList
        = '/' :: 'u' :: 's' :: 'e' :: 'r' :: 's' :: '/' :: seg from rfl, hsplit, htm]
    simp [segsMatch, segMatch, segIsParam, hne, hnm]
  · intro part seg hp
    simp [segMatch, hp]
  · intro part seg hp
    simp [segMatch, hp]
  · exact segsMatch_length_ne

/-- Witness for C5: the theorem applied at the concrete segment `42` and at
lists of unequal segment counts. -/
theorem drift_path_template_matching_witness :
    path_matches "/users/\x7bid\x7d"
      (String.mk ['/', 'u', 's', 'e', 'r', 's', '/', '4', '2']) = true
    ∧ segsMatch [['a']] [] = false :=
  ⟨drift_path_template_matching.2.1 ['4', '2'] (by decide) (by decide),
   drift_path_template_matching.2.2.2.2 [['a']] [] (by decide)⟩

/-- Claim C6 (drift field comparison): when the body parses, the schema has
a `properties` object and the body is a JSON object, the comparison emits
exactly one `DRIFT-EXTRA-FIELD` finding per body property absent from
`properties` and exactly one `DRIFT-MISSING-FIELD` finding per required key
absent from the body. -/
theorem drift_field_comparison_counts (parseJson : String → Option Json)
    (schema body : Json) (bodyStr : String)
    (props bodyObj : List (String × Json))
    (hparse : parseJson bodyStr = some body)
    (hprops : (schema.getField "properties").bind Json.asObj = some props)
    (hbody : body.asObj = some bodyObj) :
    ((compare_schema_to_body parseJson schema bodyStr).countP isExtraFieldFinding
        = bodyObj.countP (fun kv => !props.any (fun p => p.1 == kv.1)))
    ∧ ((compare_schema_to_body parseJson schema bodyStr).countP isMissingFieldFinding
        = (schemaRequiredKeys schema).countP
            (fun f => !bodyObj.any (fun kv => kv.1 == f))) := by
  simp only [compare_schema_to_body, hparse, hprops, hbody]
  cases hreq : (schema.getField "required").bind Json.asArr with
  | none =>
    simp only [schemaRequiredKeys, hreq, List.countP_append]
    constructor
    · rw [countP_extraFieldFindings_extra]
      simp
    · rw [countP_extraFieldFindings_zero isMissingFieldFinding
        (fun k => isMissing_extraFieldFinding k)]
      simp
  | some reqs =>
    simp only [schemaRequiredKeys, hreq, List.countP_append]
    constructor
    · rw [countP_extraFieldFindings_extra,
        countP_missingFieldFindings_zero isExtraFieldFinding
          (fun k => isExtra_missingFieldFinding k)]
      simp
    · rw [countP_extraFieldFindings_zero isMissingFieldFinding
        (fun k => isMissing_extraFieldFinding k),
        countP_missingFieldFindings_missing]
      simp

/-- Witness for C6: `required = [a]` with body `\x7b\x7d` yields exactly one
missing-field finding, and body `\x7ba, b\x7d` with `properties = \x7ba\x7d` yields
exactly one extra-field finding. -/
theorem drift_field_comparison_counts_witness :
    ((compare_schema_to_body (fun _s => some (Json.obj []))
        (Json.obj [("properties", Json.obj [("a", Json.null)]),
                   ("required", Json.arr [Json.str "a"])])
        "\x7b\x7d").countP isMissingFieldFinding = 1)
    ∧ ((compare_schema_to_body
        (fun _s => some (Json.obj [("a", Json.num 1), ("b", Json.num 2)]))
        (Json.obj [("properties", Json.obj [("a", Json.null)])])
        "\x7b\"a\":1,\"b\":2\x7d").countP isExtraFieldFinding = 1) := by
  constructor
  · have h := drift_field_comparison_counts (fun _s => some (Json.obj []))
      (Json.obj [("properties", Json.obj [("a", Json.null)]),
                 ("required", Json.arr [Json.str "a"])])
      (Json.obj []) "\x7b\x7d" [("a", Json.null)] [] rfl rfl rfl
    rw [h.2]
    decide
  · have h := drift_field_comparison_counts
      (fun _s => some (Json.obj [("a", Json.num 1), ("b", Json.num 2)]))
      (Json.obj [("properties", Json.obj [("a", Json.null)])])
      (Json.obj [("a", Json.num 1), ("b", Json.num 2)])
      "\x7b\"a\":1,\"b\":2\x7d" [("a", Json.null)]
      [("a", Json.num 1), ("b", Json.num 2)] rfl rfl rfl
    rw [h.1]
    decide

/-- Claim C9 (implicit): within one spec the path loop handles only the
first matching template and then breaks, so a single spec contributes at
most one `DRIFT-UNDOCUMENTED-METHOD` finding, whatever its `paths` object
holds. -/
theorem spec_at_most_one_undocumented_method
    (parseJson : String → Option Json) (path method : String)
    (resBody : Option String) (specName : String)
    (paths : List (String × Json)) :
    (specPathFindings parseJson path method resBody specName paths).countP
      isUndocMethodFinding ≤ 1 := by
  induction paths with
  | nil => simp [specPathFindings]
  | cons head rest ih =>
    obtain ⟨tmpl, methods⟩ := head
    cases hm : path_matches tmpl path with
    | false => simpa [specPathFindings, hm] using ih
    | true =>
      simp only [specPathFindings, hm, if_true]
      split
      · split
        · split
          · split
            · simp [countP_undoc_compare]
            · simp
          · simp
        · simp
      · simp [List.countP_cons]

/-- Claim C10 (implicit): an observed URL that fails to parse makes
`detect_drift` return the empty findings list at once, whatever the method,
body and stored specs. -/
theorem detect_drift_unparsable_url (parseJson : String → Option Json)
    (parseUrlPath : String → Option String) (urlStr method : String)
    (resBody : Option String) (specs : List ApiSpec)
    (h : parseUrlPath urlStr = none) :
    detect_drift parseJson parseUrlPath urlStr method resBody specs = [] := by
  simp [detect_drift, h]

/-- Witness for C10: a parser rejecting every URL string. -/
theorem detect_drift_unparsable_url_witness :
    detect_drift (fun _ => none) (fun _ => none) "http,broken" "POST"
      (some "\x7b\x7d") [⟨none, "spec", "\x7b\x7d", none⟩] = [] :=
  detect_drift_unparsable_url _ _ _ _ _ _ rfl

lemma countP_url_map_id (g : AssetRow → AssetRow)
    (hg : ∀ a, (g a).url = a.url) (l : List AssetRow) (u : String) :
    (l.map g).countP (fun a => a.url == u) = l.countP (fun a => a.url == u) := by
  induction l with
  | nil => rfl
  | cons a t ih => simp [List.countP_cons, hg a, ih]

/-- The `assets` table after `add_asset` is, depending on the branch taken:
unchanged, the stored row's status/body/last-seen rewritten, only last-seen
rewritten, or (when no row holds the URL) the old table plus one fresh row. -/
lemma add_asset_assets_shape (pj : String → Option Json)
    (pu : String → Option String) (db : Db) (req : CreateAssetRequest)
    (now : Nat) :
    ((add_asset pj pu db req now).1.assets = db.assets)
    ∨ (∃ i, (add_asset pj pu db req now).1.assets
        = db.assets.map (fun a => if a.id == i then
            { a with status_code := req.status_code, res_body := req.res_body,
                     last_seen := now } else a))
    ∨ (∃ i, (add_asset pj pu db req now).1.assets
        = db.assets.map (fun a => if a.id == i then { a with last_seen := now } else a))
    ∨ ((db.assets.find? (fun a => a.url == req.url) = none)
        ∧ (add_asset pj pu db req now).1.assets
          = db.assets ++ [⟨freshId db.assets, req.url, req.method, req.source,
              req.status_code, req.req_body, req.res_body, now⟩]) := by
  simp only [add_asset]
  split
  next row hfind =>
    split
    next stored hstored =>
      split
      next hch =>
        right; left
        refine ⟨row.id, ?_⟩
        cases hrb : stored.res_body.isSome <;> simp [insertFindings, hrb]
      next hch =>
        right; right; left
        exact ⟨row.id, by simp [insertFindings]⟩
    next hstored =>
      left; rfl
  next hfind =>
    right; right; right
    exact ⟨hfind, by simp [insertFindings]⟩

lemma batchAddStep_preserves (source : String) (now : Nat)
    (acc : Db × Nat × Nat) (url : String)
    (h : ∀ u : String, acc.1.assets.countP (fun a => a.url == u) ≤ 1) :
    ∀ u : String,
      (batchAddStep source now acc url).1.assets.countP (fun a => a.url == u) ≤ 1 := by
  obtain ⟨db, added, skipped⟩ := acc
  intro u
  simp only [batchAddStep]
  split
  next row hfind =>
    dsimp only
    rw [countP_url_map_id _ (fun a => by split <;> rfl)]
    exact h u
  next hfind =>
    dsimp only
    rw [List.countP_append]
    by_cases hu : (url == u) = true
    · have hu' : url = u := by simpa using hu
      have hz : db.assets.countP (fun a => a.url == u) = 0 := by
        apply List.countP_eq_zero.mpr
        intro a ha
        rw [← hu']
        exact List.find?_eq_none.mp hfind a ha
      rw [hz]
      simp [List.countP_cons, hu]
    · have hrow : ((⟨freshId db.assets, url, some "GET", source, none, none,
          none, now⟩ : AssetRow).url == u) = false := by
        simpa using hu
      simp [List.countP_cons, hrow]
      exact h u

lemma batch_foldl_preserves (source : String) (now : Nat) :
    ∀ (urls : List String) (acc : Db × Nat × Nat),
      (∀ u : String, acc.1.assets.countP (fun a => a.url == u) ≤ 1) →
      ∀ u : String,
        ((urls.foldl (batchAddStep source now) acc).1.assets.countP
          (fun a => a.url == u)) ≤ 1
  | [], _, h => h
  | url :: rest, acc, h =>
    batch_foldl_preserves source now rest (batchAddStep source now acc url)
      (batchAddStep_preserves source now acc url h)

/-- Claim C1 (asset uniqueness): when every URL occurs in at most one asset
row, both the `add_asset` upsert and the `batch_add_assets` ingest keep it
that way — each looks up the exact URL first and only inserts on a miss. -/
theorem asset_url_uniqueness_preserved (pj : String → Option Json)
    (pu : String → Option String) (db : Db) (req : CreateAssetRequest)
    (urls : List String) (source : String) (now : Nat)
    (h : ∀ u : String, db.assets.countP (fun a => a.url == u) ≤ 1) :
    (∀ u : String,
      (add_asset pj pu db req now).1.assets.countP (fun a => a.url == u) ≤ 1)
    ∧ (∀ u : String,
      (batch_add_assets db urls source now).1.assets.countP (fun a => a.url == u) ≤ 1) := by
  constructor
  · intro u
    rcases add_asset_assets_shape pj pu db req now with h0 | ⟨i, hi⟩ | ⟨i, hi⟩ | ⟨hnone, hins⟩
    · rw [h0]; exact h u
    · rw [hi, countP_url_map_id _ (fun a => by split <;> rfl)]; exact h u
    · rw [hi, countP_url_map_id _ (fun a => by split <;> rfl)]; exact h u
    · rw [hins, List.countP_append]
      by_cases hu : (req.url == u) = true
      · have hu' : req.url = u := by simpa using hu
        have hz : db.assets.countP (fun a => a.url == u) = 0 := by
          apply List.countP_eq_zero.mpr
          intro a ha
          rw [← hu']
          exact List.find?_eq_none.mp hnone a ha
        rw [hz]
        simp [List.countP_cons, hu]
      · have hrow : ((⟨freshId db.assets, req.url, req.method, req.source,
            req.status_code, req.req_body, req.res_body, now⟩ : AssetRow).url == u)
            = false := by simpa using hu
        simp [List.countP_cons, hrow]
        exact h u
  · exact batch_foldl_preserves source now urls (db, 0, 0) h

/-- Witness for C1: upserting into an empty store and batch-ingesting the
same URL twice. -/
theorem asset_url_uniqueness_preserved_witness :
    ((add_asset (fun _ => none) (fun _ => none) ⟨[], [], [], []⟩
        ⟨"https://a.example/x", "Live Proxy", some "GET", some 200, none, none, []⟩
        5).1.assets.countP (fun a => a.url == "https://a.example/x") ≤ 1)
    ∧ ((batch_add_assets ⟨[], [], [], []⟩
        ["https://a.example/x", "https://a.example/x"] "Import" 5).1.assets.countP
          (fun a => a.url == "https://a.example/x") ≤ 1) :=
  ⟨(asset_url_uniqueness_preserved (fun _ => none) (fun _ => none) ⟨[], [], [], []⟩
      ⟨"https://a.example/x", "Live Proxy", some "GET", some 200, none, none, []⟩
      ["https://a.example/x", "https://a.example/x"] "Import" 5
      (fun u => by simp)).1 "https://a.example/x",
   (asset_url_uniqueness_preserved (fun _ => none) (fun _ => none) ⟨[], [], [], []⟩
      ⟨"https://a.example/x", "Live Proxy", some "GET", some 200, none, none, []⟩
      ["https://a.example/x", "https://a.example/x"] "Import" 5
      (fun u => by simp)).2 "https://a.example/x"⟩

/-- Claim C2 (upsert history semantics): when the URL lookup finds row `r`
(and the re-read by id returns the same row), an upsert whose
`(status_code, res_body)` equals the stored pair adds no history row and
only refreshes `last_seen`, while a differing pair with a non-null stored
body appends exactly one history row carrying the old pair and then
overwrites the row's status/body and refreshes `last_seen`. -/
theorem add_asset_history_semantics (pj : String → Option Json)
    (pu : String → Option String) (db : Db) (req : CreateAssetRequest)
    (now : Nat) (r : AssetRow)
    (hurl : db.assets.find? (fun a => a.url == req.url) = some r)
    (hid : db.assets.find? (fun a => a.id == r.id) = some r) :
    ((req.status_code = r.status_code ∧ req.res_body = r.res_body) →
      ((add_asset pj pu db req now).1.history = db.history
        ∧ (add_asset pj pu db req now).1.assets
          = db.assets.map (fun a =>
              if a.id == r.id then { a with last_seen := now } else a)))
    ∧ ((¬(req.status_code = r.status_code ∧ req.res_body = r.res_body)) →
        r.res_body.isSome = true →
      ((add_asset pj pu db req now).1.history
          = db.history ++ [⟨r.id, r.status_code, r.res_body, now⟩]
        ∧ (add_asset pj pu db req now).1.assets
          = db.assets.map (fun a =>
              if a.id == r.id then
                { a with status_code := req.status_code,
                         res_body := req.res_body, last_seen := now }
              else a))) := by
  constructor
  · rintro ⟨h1, h2⟩
    have hch : (!(req.status_code == r.status_code)
        || !(req.res_body == r.res_body)) = false := by
      simp [h1, h2]
    simp [add_asset, hurl, hid, hch, insertFindings]
  · intro hne hsome
    have hch : (!(req.status_code == r.status_code)
        || !(req.res_body == r.res_body)) = true := by
      by_cases hsc : req.status_code = r.status_code
      · by_cases hrb : req.res_body = r.res_body
        · exact absurd ⟨hsc, hrb⟩ hne
        · simp [hrb]
      · simp [hsc]
    simp [add_asset, hurl, hid, hch, hsome, insertFindings]

/-- Witness for C2: a stored row with body `A` upserted with body `B`
snapshots the old pair into the history. -/
theorem add_asset_history_semantics_witness :
    ((add_asset (fun _ => none) (fun _ => none)
        ⟨[⟨1, "https://a.example/x", some "GET", "Live Proxy", some 200, none,
            some "A", 0⟩], [], [], []⟩
        ⟨"https://a.example/x", "Live Proxy", some "GET", some 200, none,
            some "B", []⟩ 7).1.history
      = [⟨1, some 200, some "A", 7⟩]) := by
  have h := (add_asset_history_semantics (fun _ => none) (fun _ => none)
      ⟨[⟨1, "https://a.example/x", some "GET", "Live Proxy", some 200, none,
          some "A", 0⟩], [], [], []⟩
      ⟨"https://a.example/x", "Live Proxy", some "GET", some 200, none,
          some "B", []⟩ 7
      ⟨1, "https://a.example/x", some "GET", "Live Proxy", some 200, none,
          some "A", 0⟩ rfl rfl).2 (by decide) rfl
  exact h.1

/-- Claim C3 (request-phase interception decisions): `Forward` forwards the
original parts and bytes upstream; `Drop` short-circuits with the fixed 403
response and no upstream call; `ModifyRequest` forwards with method and URI
replaced when they parse and kept otherwise, the header map rebuilt skipping
any entry with an unparsable name or value while parsable entries are
inserted, and the body replaced; `ModifyResponse` behaves exactly like
`Forward`. -/
theorem request_decision_semantics
    (pm pu pn pv : String → Option String) (parts : RequestParts)
    (bytes : String) :
    (applyRequestDecision pm pu pn pv parts bytes (some .Forward)
        = .upstream parts bytes)
    ∧ (applyRequestDecision pm pu pn pv parts bytes (some .Drop)
        = .shortCircuit 403 "Request dropped by APISec Interceptor")
    ∧ (∀ m u hs b, applyRequestDecision pm pu pn pv parts bytes
          (some (.ModifyRequest m u hs b))
        = .upstream
            { method := (pm m).getD parts.method
            , uri := (pu u).getD parts.uri
            , headers := applyModHeaders pn pv [] hs } (b.getD ""))
    ∧ (∀ m, pm m = none → ((pm m).getD parts.method) = parts.method)
    ∧ (∀ u, pu u = none → ((pu u).getD parts.uri) = parts.uri)
    ∧ (∀ acc k v rest, (pn k = none ∨ pv v = none) →
        applyModHeaders pn pv acc ((k, v) :: rest)
          = applyModHeaders pn pv acc rest)
    ∧ (∀ acc k v rest n w, pn k = some n → pv v = some w →
        applyModHeaders pn pv acc ((k, v) :: rest)
          = applyModHeaders pn pv (insertHeader acc n w) rest)
    ∧ (∀ s hs b, applyRequestDecision pm pu pn pv parts bytes
          (some (.ModifyResponse s hs b))
        = .upstream parts bytes) := by
  refine ⟨rfl, rfl, fun m u hs b => rfl, ?_, ?_, ?_, ?_, fun s hs b => rfl⟩
  · intro m hm
    rw [hm]
    rfl
  · intro u hu
    rw [hu]
    rfl
  · intro acc k v rest h
    rcases h with h | h
    · simp [applyModHeaders, h]
    · cases hk : pn k with
      | none => simp [applyModHeaders, hk]
      | some n => simp [applyModHeaders, hk, h]
  · intro acc k v rest n w hk hv
    simp [applyModHeaders, hk, hv]

/-- Witness for C3: parsers that reject the header name `"bad header"` and
accept everything else. -/
theorem request_decision_semantics_witness :
    applyModHeaders
      (fun s => if s == "bad header" then none else some s) (fun v => some v)
      [] [("bad header", "1"), ("X-Ok", "2")]
      = applyModHeaders
          (fun s => if s == "bad header" then none else some s) (fun v => some v)
          [] [("X-Ok", "2")] :=
  (request_decision_semantics
      (fun s => if s == "bad header" then none else some s) (fun v => some v)
      (fun s => if s == "bad header" then none else some s) (fun v => some v)
      ⟨"GET", "http://a.example/", []⟩ "").2.2.2.2.2.1
    [] "bad header" "1" [("X-Ok", "2")] (Or.inl rfl)

/-- Claim C4 (WebSocket bypass): a flow whose `Upgrade` header equals
`websocket` emits no response-interception event, buffers no response body,
and is still ingested with source label `"Live Proxy (WS)"`; a flow without
that header value keeps the normal `"Live Proxy"` label. -/
theorem websocket_bypass (captureBody interceptResponses : Bool)
    (url method : String) (status : Nat) (reqBodyStr : Option String)
    (upstreamBody : String) (findings : List Finding) :
    ((mkFlowObservation captureBody interceptResponses (some "websocket")
        url method status reqBodyStr upstreamBody findings).emitInterceptResponse = false)
    ∧ ((mkFlowObservation captureBody interceptResponses (some "websocket")
        url method status reqBodyStr upstreamBody findings).resBodyStr = none)
    ∧ ((mkFlowObservation captureBody interceptResponses (some "websocket")
        url method status reqBodyStr upstreamBody findings).assetReq.res_body = none)
    ∧ ((mkFlowObservation captureBody interceptResponses (some "websocket")
        url method status reqBodyStr upstreamBody findings).assetReq.source
          = "Live Proxy (WS)")
    ∧ ((mkFlowObservation captureBody interceptResponses (some "websocket")
        url method status reqBodyStr upstreamBody findings).assetReq.url = url)
    ∧ (∀ hdr : Option String, hdr ≠ some "websocket" →
        (mkFlowObservation captureBody interceptResponses hdr
          url method status reqBodyStr upstreamBody findings).assetReq.source
            = "Live Proxy") := by
  refine ⟨by simp [mkFlowObservation], by simp [mkFlowObservation],
    by simp [mkFlowObservation], by simp [mkFlowObservation],
    by simp [mkFlowObservation], ?_⟩
  intro hdr hne
  have hb : (hdr == some "websocket") = false := by
    cases hd : hdr == some "websocket"
    · rfl
    · exact absurd (by simpa using hd) hne
  simp [mkFlowObservation, hb]

/-- Witness for C4: a flow with an `Upgrade: websocket` header and one with
no `Upgrade` header. -/
theorem websocket_bypass_witness :
    ((mkFlowObservation true true (some "websocket") "https://a.example/ws"
        "GET" 101 none "ignored" []).assetReq.source = "Live Proxy (WS)")
    ∧ ((mkFlowObservation true true none "https://a.example/ws"
        "GET" 200 none "body" []).assetReq.source = "Live Proxy") :=
  ⟨(websocket_bypass true true "https://a.example/ws" "GET" 101 none
      "ignored" []).2.2.2.1,
   (websocket_bypass true true "https://a.example/ws" "GET" 200 none
      "body" []).2.2.2.2.2 none (by simp)⟩


lemma flatMap_compiles_filter {α β : Type} (p : α → Bool) (f : α → List β) :
    ∀ l : List α,
      (l.flatMap (fun a => if p a then f a else []))
        = ((l.filter p).flatMap (fun a => if p a then f a else []))
  | [] => rfl
  | a :: rest => by
    cases hpa : p a with
    | true =>
      simp only [List.flatMap_cons, List.filter_cons, hpa, if_true,
        flatMap_compiles_filter p f rest]
    | false =>
      simp only [List.flatMap_cons, List.filter_cons, hpa, if_false,
        flatMap_compiles_filter p f rest]
      simp

lemma scan_custom_skips_invalid (lib : RegexLib) (content : String)
    (rules : List CustomRule) :
    scan_custom lib content rules
      = scan_custom lib content (rules.filter (fun r => lib.compiles r.regex)) := by
  unfold scan_custom
  exact flatMap_compiles_filter (fun r => lib.compiles r.regex) _ rules

lemma scan_with_plugins_skips_invalid (lib : RegexLib) (content : String) :
    ∀ plugins : List PluginPack,
      scan_with_plugins lib content plugins
        = scan_with_plugins lib content (plugins.map (fun p =>
            { p with rules := p.rules.filter (fun r => lib.compiles r.regex) }))
  | [] => rfl
  | pack :: rest => by
    simp only [List.map_cons, scan_with_plugins, List.flatMap_cons]
    rw [← flatMap_compiles_filter (fun r => lib.compiles r.regex) _ pack.rules]
    have ih := scan_with_plugins_skips_invalid lib content rest
    unfold scan_with_plugins at ih
    rw [ih]

/-- Claim C8 (scanner totality on bad rules): rules whose regexes fail to
compile — in the custom-rule path and in every plugin pack — contribute no
findings: filtering them out first leaves `Scanner::scan_text`'s output
unchanged, on every input text.  (The scanner itself is a total function of
its inputs; the fallible compilations are exactly these two guarded
paths.) -/
theorem scan_text_skips_invalid_rules (lib : RegexLib)
    (orderOf : String → List (Char × Nat)) (content : String)
    (customRules : List CustomRule) (plugins : List PluginPack) :
    scan_text lib orderOf content customRules plugins
      = scan_text lib orderOf content
          (customRules.filter (fun r => lib.compiles r.regex))
          (plugins.map (fun p =>
            { p with rules := p.rules.filter (fun r => lib.compiles r.regex) })) := by
  unfold scan_text
  rw [← scan_custom_skips_invalid, ← scan_with_plugins_skips_invalid]
